import Mathlib

/-!
Shallow embedding of the AI-Trader backtest engine
(`tools/backtest_engine.py`) and of the rule-validation tool
(`tools/astock_rules.py`).

Modelling conventions:
* Prices and money are exact rationals (`ℚ`); Python's `round(x, 2)`
  two-decimal rounding is modelled by `round2` (round half towards
  positive infinity on the exact value, which agrees with the float
  behaviour on every value appearing below).
* Dates (`"YYYY-MM-DD"` strings parsed with `strptime` in the source)
  are modelled as integer day numbers: parsing is a strictly monotone
  bijection onto days, `d2 - d1` is `(date2 - date1).days`, and the
  order on dates is the order on the integers.
* The `{symbol: {date: record}}` price dictionary is modelled as a
  function `String → ℤ → Option BarRecord`; an ingested record is
  `some r` (records are non-empty dicts, hence truthy in Python).
* The `{symbol: Position}` dictionary is an association list with the
  insertion-order update/delete semantics of a Python dict
  (`dictGet` / `dictSet` / `dictErase`).
* Python exceptions are explicit: `get_price` returns
  `Except TimeViolationError _`, `execute_trade` returns an
  `ExecOutcome` (either `raised` a `TradeComplianceError` or
  `returned` a Bool) paired with the post-call engine state.
-/

namespace AITrader

/-- Two-decimal rounding, the model of Python `round(x, 2)` on the
exact rational value. -/
def round2 (x : ℚ) : ℚ := ((round (x * 100) : ℤ) : ℚ) / 100

/-- Mirror of the `Position` dataclass of `backtest_engine.py`. -/
structure Position where
  symbol : String
  quantity : ℤ
  avg_cost : ℚ
  buy_date : ℤ
  current_value : ℚ := 0
  unrealized_pnl : ℚ := 0
deriving DecidableEq

/-- Mirror of the `Trade` dataclass of `backtest_engine.py`. -/
structure Trade where
  date : ℤ
  symbol : String
  action : String
  quantity : ℤ
  price : ℚ
  amount : ℚ
  fee : ℚ
  slippage : ℚ
deriving DecidableEq

/-- One ingested market-data record for a (symbol, date) key.  Numeric
fields (close, open, prev_close, ...) live in `fields`; the
string-valued `status` key and the boolean `is_st` key (whose absence
in the dict is the same as `False`, via `.get("is_st", False)`) are
modelled separately. -/
structure BarRecord where
  fields : List (String × ℚ)
  status : Option String := none
  is_st : Bool := false
deriving DecidableEq

/-- Mirror of the exception class `TimeViolationError`. -/
structure TimeViolationError where
  msg : String
deriving DecidableEq

/-- Mirror of the exception class `TradeComplianceError`. -/
structure TradeComplianceError where
  msg : String
deriving DecidableEq

/-- Outcome of one `execute_trade` call: either the Python call raised
`TradeComplianceError`, or it returned a boolean. -/
inductive ExecOutcome where
  | raised (e : TradeComplianceError)
  | returned (success : Bool)
deriving DecidableEq

/-- The mutable state of a `BacktestEngine` object, restricted to the
fields read or written by the functions embedded here. -/
structure EngineState where
  commission_rate : ℚ
  slippage_rate : ℚ
  max_positions : ℕ
  positions : List (String × Position)
  cash : ℚ
  trades : List Trade
  price_data : String → ℤ → Option BarRecord
  current_date : Option ℤ

/-- Python dict read `positions.get(symbol)` / `symbol in positions`. -/
def dictGet (m : List (String × Position)) (k : String) : Option Position :=
  match m with
  | [] => none
  | (k', v) :: rest => if k' = k then some v else dictGet rest k

/-- Python dict write `positions[symbol] = v` (update in place when the
key is present, append otherwise). -/
def dictSet (m : List (String × Position)) (k : String) (v : Position) :
    List (String × Position) :=
  match m with
  | [] => [(k, v)]
  | (k', v') :: rest => if k' = k then (k, v) :: rest else (k', v') :: dictSet rest k v

/-- Python dict delete `del positions[symbol]`. -/
def dictErase (m : List (String × Position)) (k : String) :
    List (String × Position) :=
  match m with
  | [] => []
  | (k', v') :: rest => if k' = k then rest else (k', v') :: dictErase rest k

/-- Python `record.get(field)` on the numeric fields of a record. -/
def field_lookup (fields : List (String × ℚ)) (k : String) : Option ℚ :=
  match fields with
  | [] => none
  | (k', v) :: rest => if k' = k then some v else field_lookup rest k

/-- Python `symbol.startswith(p)` on the character sequence. -/
def starts_with (s p : String) : Bool :=
  p.data.isPrefixOf s.data

/-- The value `get_price` returns on its non-raising path: the ingested
value for (symbol, date, field), and `None` when the symbol or the date
has no record (`backtest_engine.py` lines 189-195). -/
def store_lookup (st : EngineState) (symbol : String) (date : ℤ)
    (field : String) : Option ℚ :=
  match st.price_data symbol date with
  | none => none
  | some r => field_lookup r.fields field

/-- The time-travel guard `self.current_date and query_date > self.current_date`
of `get_price` (a set `datetime` is always truthy). -/
def time_violation_check (clock : Option ℤ) (date : ℤ) : Bool :=
  match clock with
  | some c => date > c
  | none => false

/-- Mirror of `BacktestEngine.get_price` (lines 166-195): raise
`TimeViolationError` when the clock is set and the queried date is
later, otherwise look the value up. -/
def get_price (st : EngineState) (symbol : String) (date : ℤ)
    (field : String) : Except TimeViolationError (Option ℚ) :=
  if time_violation_check st.current_date date then
    Except.error ⟨"access to future data is forbidden"⟩
  else
    Except.ok (store_lookup st symbol date field)

/-- Mirror of `BacktestEngine.calculate_slippage` (lines 223-239). -/
def calculate_slippage (st : EngineState) (price : ℚ) (action : String) : ℚ :=
  if action = "buy" then round2 (price * (1 + st.slippage_rate))
  else round2 (price * (1 - st.slippage_rate))

/-- Mirror of `BacktestEngine.calculate_commission` (lines 241-252):
`max(5.0, round(amount * commission_rate, 2))`. -/
def calculate_commission (st : EngineState) (amount : ℚ) : ℚ :=
  max 5 (round2 (amount * st.commission_rate))

/-- Rule 2 of `validate_trade_compliance`:
`price_data and price_data.get("status") == "suspended"`. -/
def suspended (pd : Option BarRecord) : Bool :=
  match pd with
  | some r => r.status = some "suspended"
  | none => false

/-- Rule 3 of `validate_trade_compliance` (T+1, lines 279-285): a sell
is blocked when the symbol is held and `(sell_date - buy_date).days < 1`. -/
def t1_blocked (positions : List (String × Position)) (symbol : String)
    (date_str : ℤ) : Bool :=
  match dictGet positions symbol with
  | some pos => date_str - pos.buy_date < 1
  | none => false

/-- The board-dependent limit ratio of rule 4 of
`validate_trade_compliance` (lines 293-302).  Ratios 1.20 / 1.05 /
1.10 are the exact rationals 6/5, 21/20, 11/10; the 688/300 prefix
test comes before the ST flag. -/
def limit_ratio (r : BarRecord) (symbol : String) : ℚ :=
  if starts_with symbol "688" || starts_with symbol "300" then 6/5
  else if r.is_st then 21/20
  else 11/10

/-- Rule 4 of `validate_trade_compliance` (price limits, lines 287-313).
The guard `if prev_close and current_price` is Python truthiness: both
keys present and both values nonzero.  The `abs(...) < 0.01` tolerance
is embedded as a comparison of exact rationals; the program compares
binary64 doubles, which can land on the other side of the bound when
the distance is exactly one 0.01 tick (the C2 analysis below certifies
such a divergence at the 10.98 versus 10.99 boundary).  The claims
proved about `execute_trade` never exercise this comparison: they all
run on dates with no ingested record. -/
def limit_blocked (pd : Option BarRecord) (symbol action : String) : Bool :=
  match pd with
  | none => false
  | some r =>
    match field_lookup r.fields "prev_close", field_lookup r.fields "close" with
    | some prev_close, some current_price =>
      if prev_close ≠ 0 ∧ current_price ≠ 0 then
        let limit_up := round2 (prev_close * limit_ratio r symbol)
        let limit_down := round2 (prev_close * (2 - limit_ratio r symbol))
        decide ((action = "buy" ∧ |current_price - limit_up| < 1/100) ∨
                (action = "sell" ∧ |current_price - limit_down| < 1/100))
      else false
    | _, _ => false

/-- Mirror of `BacktestEngine.validate_trade_compliance` (lines
254-315): the four checks in source order; the first failing check
produces `(False, message)`, otherwise `(True, "")`. -/
def validate_trade_compliance (st : EngineState) (symbol action : String)
    (quantity : ℤ) (price : ℚ) (date_str : ℤ) : Bool × String :=
  if quantity % 100 ≠ 0 then
    (false, "quantity must be a whole multiple of 100 shares")
  else if suspended (st.price_data symbol date_str) then
    (false, "trading a suspended stock is forbidden")
  else if action = "sell" ∧ t1_blocked st.positions symbol date_str then
    (false, "T plus 1 rule: bought today, sellable from tomorrow")
  else if limit_blocked (st.price_data symbol date_str) symbol action then
    (false, "price limit reached")
  else
    (true, "")

/-- Mirror of `BacktestEngine.execute_trade` (lines 317-421).  The
returned pair is (outcome, state after the call); on a raise or a
`False` return the source has not yet mutated anything, so the original
state is returned unchanged. -/
def execute_trade (st : EngineState) (symbol action : String) (quantity : ℤ)
    (price : ℚ) (date_str : ℤ) : ExecOutcome × EngineState :=
  let v := validate_trade_compliance st symbol action quantity price date_str
  if v.1 = false then
    (ExecOutcome.raised ⟨v.2⟩, st)
  else
    let actual_price := calculate_slippage st price action
    let amount := actual_price * (quantity : ℚ)
    let fee := calculate_commission st amount
    let slippage := |actual_price - price| * (quantity : ℚ)
    let trade : Trade := ⟨date_str, symbol, action, quantity, actual_price, amount, fee, slippage⟩
    if action = "buy" then
      let total_cost := amount + fee
      if total_cost > st.cash then
        (ExecOutcome.returned false, st)
      else if dictGet st.positions symbol = none ∧
              st.positions.length ≥ st.max_positions then
        (ExecOutcome.returned false, st)
      else
        let positions' :=
          match dictGet st.positions symbol with
          | some pos =>
            let total_quantity := pos.quantity + quantity
            let total_cost_value := pos.avg_cost * (pos.quantity : ℚ) + amount
            dictSet st.positions symbol
              { pos with
                avg_cost := round2 (total_cost_value / (total_quantity : ℚ)),
                quantity := total_quantity }
          | none =>
            dictSet st.positions symbol
              { symbol := symbol, quantity := quantity,
                avg_cost := actual_price, buy_date := date_str }
        (ExecOutcome.returned true,
          { st with positions := positions',
                    cash := st.cash - total_cost,
                    trades := st.trades ++ [trade] })
    else
      match dictGet st.positions symbol with
      | none => (ExecOutcome.returned false, st)
      | some pos =>
        if pos.quantity < quantity then
          (ExecOutcome.returned false, st)
        else
          let newq := pos.quantity - quantity
          let positions' :=
            if newq = 0 then dictErase st.positions symbol
            else dictSet st.positions symbol { pos with quantity := newq }
          let total_income := amount - fee
          (ExecOutcome.returned true,
            { st with positions := positions',
                      cash := st.cash + total_income,
                      trades := st.trades ++ [trade] })

/-- Mirror of `AStockRuleValidator.check_min_trade_unit` of
`astock_rules.py` (lines 182-199): only a buy is checked against the
minimum unit; every sell passes (odd-lot sells allowed there). -/
def check_min_trade_unit (min_unit : ℤ) (amount : ℤ) (action : String) :
    Bool × Option String :=
  if action = "buy" then
    if amount % min_unit ≠ 0 then
      (false, some "buy amount must be a whole multiple of the minimum unit")
    else (true, none)
  else (true, none)

/-- One iteration of the max-drawdown loop of
`BacktestEngine.calculate_metrics` (lines 533-539): the accumulator is
(peak, max_dd so far), the drawdown is expressed in percent. -/
def dd_step (acc : ℚ × ℚ) (value : ℚ) : ℚ × ℚ :=
  let peak := if value > acc.1 then value else acc.1
  let dd := (peak - value) / peak * 100
  (peak, if dd > acc.2 then dd else acc.2)

/-- The max-drawdown loop of `BacktestEngine.calculate_metrics` (lines
530-539): the running peak starts at `initial_capital`, each drawdown
is expressed in percent, and `calculate_metrics` finally reports
`round2` of this value. -/
def max_drawdown_calc (initial_capital : ℚ) (values : List ℚ) : ℚ :=
  (values.foldl dd_step (initial_capital, 0)).2

/-- One step of the specification's max-drawdown formula: running peak
is the running maximum of the values themselves, drawdown a fraction. -/
def spec_dd_step (acc : ℚ × ℚ) (value : ℚ) : ℚ × ℚ :=
  let peak := max acc.1 value
  (peak, max acc.2 ((peak - value) / peak))

/-- The max-drawdown formula in the words of the specification:
maximum over t of `(running_peak(t) - value(t)) / running_peak(t)` with
`running_peak(t) = max(value(0..t))` (a fraction, no seed from the
initial capital). -/
def spec_max_drawdown : List ℚ → ℚ
  | [] => 0
  | v :: rest => (rest.foldl spec_dd_step (v, 0)).2

/-- The win-rate computation of `calculate_metrics` (lines 556-560): a
sell trade counts as winning when its fill price exceeds the
`avg_cost` found in the **current** position map,
`positions.get(t.symbol, Position("", 0, t.price, ""))` defaulting to a
position whose `avg_cost` is the trade price itself. -/
def win_rate_calc (positions : List (String × Position)) (trades : List Trade) : ℚ :=
  let winning := (trades.filter (fun t =>
    t.action = "sell" ∧
      0 < t.price - (match dictGet positions t.symbol with
        | some pos => pos.avg_cost
        | none => t.price))).length
  let total := (trades.filter (fun t => t.action = "sell")).length
  if total > 0 then ((winning : ℚ) / (total : ℚ)) * 100 else 0

/-! Helper lemmas about the dict model. -/

theorem dictGet_dictSet_self (m : List (String × Position)) (k : String)
    (v : Position) : dictGet (dictSet m k v) k = some v := by
  induction m with
  | nil => simp [dictSet, dictGet]
  | cons hd tl ih =>
    by_cases h : hd.1 = k
    · simp [dictSet, dictGet, h]
    · simpa [dictSet, dictGet, h] using ih

theorem dictGet_eq_none_of_not_mem_keys (m : List (String × Position))
    (k : String) (h : k ∉ m.map Prod.fst) : dictGet m k = none := by
  induction m with
  | nil => simp [dictGet]
  | cons hd tl ih =>
    simp only [List.map_cons, List.mem_cons, not_or] at h
    have hne : hd.1 ≠ k := fun hh => h.1 hh.symm
    simp [dictGet, hne, ih h.2]

theorem dictGet_dictErase_self (m : List (String × Position)) (k : String)
    (hnodup : (m.map Prod.fst).Nodup) : dictGet (dictErase m k) k = none := by
  induction m with
  | nil => simp [dictErase, dictGet]
  | cons hd tl ih =>
    simp only [List.map_cons, List.nodup_cons] at hnodup
    by_cases h : hd.1 = k
    · simpa [dictErase, h] using
        dictGet_eq_none_of_not_mem_keys tl k (h ▸ hnodup.1)
    · simpa [dictErase, dictGet, h] using ih hnodup.2

/-! Helper lemmas about `validate_trade_compliance` in the situations the
claims quantify over. -/

theorem validate_pass (st : EngineState) (sym act : String) (q : ℤ) (p : ℚ)
    (d : ℤ) (hlot : q % 100 = 0) (hrec : st.price_data sym d = none)
    (ht1 : act = "sell" → t1_blocked st.positions sym d = false) :
    validate_trade_compliance st sym act q p d = (true, "") := by
  by_cases hact : act = "sell"
  · simp [validate_trade_compliance, hlot, hrec, suspended, limit_blocked, ht1 hact]
  · simp [validate_trade_compliance, hlot, hrec, suspended, limit_blocked, hact]

theorem validate_fail_t1 (st : EngineState) (sym : String) (q : ℤ) (p : ℚ)
    (d : ℤ) (pos : Position) (hpos : dictGet st.positions sym = some pos)
    (ht1 : d - pos.buy_date < 1) :
    (validate_trade_compliance st sym "sell" q p d).1 = false := by
  by_cases hlot : q % 100 = 0
  · by_cases hsusp : suspended (st.price_data sym d) = true
    · simp [validate_trade_compliance, hlot, hsusp]
    · simp [validate_trade_compliance, hlot, hsusp, t1_blocked, hpos, ht1]
  · simp [validate_trade_compliance, hlot]

/-! Helper lemmas computing `execute_trade` on the successful paths. -/

theorem execute_sell_success (st : EngineState) (sym : String) (q : ℤ)
    (p : ℚ) (d : ℤ) (pos : Position)
    (hpos : dictGet st.positions sym = some pos)
    (hlot : q % 100 = 0) (hrec : st.price_data sym d = none)
    (ht1 : 1 ≤ d - pos.buy_date) (hqty : q ≤ pos.quantity) :
    execute_trade st sym "sell" q p d =
      (ExecOutcome.returned true,
       { st with
          positions :=
            if pos.quantity - q = 0 then dictErase st.positions sym
            else dictSet st.positions sym { pos with quantity := pos.quantity - q },
          cash := st.cash +
            (calculate_slippage st p "sell" * (q : ℚ) -
              calculate_commission st (calculate_slippage st p "sell" * (q : ℚ))),
          trades := st.trades ++
            [⟨d, sym, "sell", q, calculate_slippage st p "sell",
              calculate_slippage st p "sell" * (q : ℚ),
              calculate_commission st (calculate_slippage st p "sell" * (q : ℚ)),
              |calculate_slippage st p "sell" - p| * (q : ℚ)⟩] }) := by
  have hv : validate_trade_compliance st sym "sell" q p d = (true, "") :=
    validate_pass st sym "sell" q p d hlot hrec
      (fun _ => by simp [t1_blocked, hpos]; omega)
  have hq : ¬ pos.quantity < q := not_lt.mpr hqty
  simp [execute_trade, hv, hpos, hq]

theorem execute_buy_add_success (st : EngineState) (sym : String) (q : ℤ)
    (p : ℚ) (d : ℤ) (pos : Position)
    (hpos : dictGet st.positions sym = some pos)
    (hlot : q % 100 = 0) (hrec : st.price_data sym d = none)
    (hcash : calculate_slippage st p "buy" * (q : ℚ) +
      calculate_commission st (calculate_slippage st p "buy" * (q : ℚ)) ≤ st.cash) :
    execute_trade st sym "buy" q p d =
      (ExecOutcome.returned true,
       { st with
          positions := dictSet st.positions sym
            { pos with
                avg_cost := round2
                  ((pos.avg_cost * (pos.quantity : ℚ) +
                    calculate_slippage st p "buy" * (q : ℚ)) /
                   ((pos.quantity + q : ℤ) : ℚ)),
                quantity := pos.quantity + q },
          cash := st.cash -
            (calculate_slippage st p "buy" * (q : ℚ) +
              calculate_commission st (calculate_slippage st p "buy" * (q : ℚ))),
          trades := st.trades ++
            [⟨d, sym, "buy", q, calculate_slippage st p "buy",
              calculate_slippage st p "buy" * (q : ℚ),
              calculate_commission st (calculate_slippage st p "buy" * (q : ℚ)),
              |calculate_slippage st p "buy" - p| * (q : ℚ)⟩] }) := by
  have hv : validate_trade_compliance st sym "buy" q p d = (true, "") :=
    validate_pass st sym "buy" q p d hlot hrec (by simp)
  have hc : ¬ (calculate_slippage st p "buy" * (q : ℚ) +
      calculate_commission st (calculate_slippage st p "buy" * (q : ℚ)) > st.cash) :=
    not_lt.mpr hcash
  simp [execute_trade, hv, hpos, hc]

theorem execute_buy_new_success (st : EngineState) (sym : String) (q : ℤ)
    (p : ℚ) (d : ℤ)
    (hpos : dictGet st.positions sym = none)
    (hlot : q % 100 = 0) (hrec : st.price_data sym d = none)
    (hcap : st.positions.length < st.max_positions)
    (hcash : calculate_slippage st p "buy" * (q : ℚ) +
      calculate_commission st (calculate_slippage st p "buy" * (q : ℚ)) ≤ st.cash) :
    execute_trade st sym "buy" q p d =
      (ExecOutcome.returned true,
       { st with
          positions := dictSet st.positions sym
            { symbol := sym, quantity := q,
              avg_cost := calculate_slippage st p "buy", buy_date := d },
          cash := st.cash -
            (calculate_slippage st p "buy" * (q : ℚ) +
              calculate_commission st (calculate_slippage st p "buy" * (q : ℚ))),
          trades := st.trades ++
            [⟨d, sym, "buy", q, calculate_slippage st p "buy",
              calculate_slippage st p "buy" * (q : ℚ),
              calculate_commission st (calculate_slippage st p "buy" * (q : ℚ)),
              |calculate_slippage st p "buy" - p| * (q : ℚ)⟩] }) := by
  have hv : validate_trade_compliance st sym "buy" q p d = (true, "") :=
    validate_pass st sym "buy" q p d hlot hrec (by simp)
  have hc : ¬ (calculate_slippage st p "buy" * (q : ℚ) +
      calculate_commission st (calculate_slippage st p "buy" * (q : ℚ)) > st.cash) :=
    not_lt.mpr hcash
  have hcap' : ¬ st.positions.length ≥ st.max_positions := not_le.mpr hcap
  simp [execute_trade, hv, hpos, hc, hcap']

/-! Concrete engine states used by the witness and counterexample
theorems. -/

/-- A fresh engine: 100000 cash, no positions, no ingested data, the
default config rates of `backtest_engine.py` with zero slippage. -/
def baseState : EngineState :=
  { commission_rate := 3/10000, slippage_rate := 0, max_positions := 5,
    positions := [], cash := 100000, trades := [],
    price_data := fun _ _ => none, current_date := none }

/-- A main-board position of 100 shares at average cost 10, bought on
day 0. -/
def heldPos : Position :=
  { symbol := "600000", quantity := 100, avg_cost := 10, buy_date := 0 }

/-- `baseState` holding `heldPos`. -/
def heldState : EngineState :=
  { baseState with positions := [("600000", heldPos)] }

/-- A record whose only ingested field is a close of 10. -/
def c1Bar : BarRecord := { fields := [("close", 10)] }

/-- A store holding `c1Bar` at ("600000", day 3), clock set to day 5. -/
def c1State : EngineState :=
  { baseState with
    price_data := fun s dd => if s = "600000" ∧ dd = 3 then some c1Bar else none,
    current_date := some 5 }

/-- `c1State` with the simulation clock unset. -/
def c1StateUnset : EngineState := { c1State with current_date := none }

/-- Main-board, non-ST record: prev_close 9.99, close 10.98. -/
def c2BarBelowLimit : BarRecord :=
  { fields := [("prev_close", 999/100), ("close", 1098/100)] }

/-- `baseState` with one record ingested at ("600000", day 1). -/
def quoteState (r : BarRecord) : EngineState :=
  { baseState with
    price_data := fun s dd => if s = "600000" ∧ dd = 1 then some r else none }

/-- C1: `get_price` raises `TimeViolationError` exactly on queries
strictly later than a set simulation clock; on-or-before queries and
queries with the clock unset return the ingested value, `none` when no
record was ingested. -/
theorem claim_C1_time_gate (st : EngineState) (sym : String) (d : ℤ)
    (f : String) :
    (∀ c : ℤ, st.current_date = some c → c < d →
        ∃ e, get_price st sym d f = Except.error e)
  ∧ (∀ c : ℤ, st.current_date = some c → d ≤ c →
        get_price st sym d f = Except.ok (store_lookup st sym d f))
  ∧ (st.current_date = none →
        get_price st sym d f = Except.ok (store_lookup st sym d f))
  ∧ (st.price_data sym d = none → store_lookup st sym d f = none) := by
  refine ⟨?_, ?_, ?_, ?_⟩
  · intro c hc hlt
    exact ⟨⟨"access to future data is forbidden"⟩,
      by simp [get_price, time_violation_check, hc, hlt]⟩
  · intro c hc hle
    simp [get_price, time_violation_check, hc, not_lt.mpr hle]
  · intro hc
    simp [get_price, time_violation_check, hc]
  · intro h
    simp [store_lookup, h]

/-- Witness for C1 at a concrete store: day 7 is gated by a clock at
day 5, day 3 is readable, and an unset clock reads any date. -/
theorem claim_C1_time_gate_witness :
    (∃ e, get_price c1State "600000" 7 "close" = Except.error e)
  ∧ get_price c1State "600000" 3 "close" = Except.ok (some 10)
  ∧ get_price c1StateUnset "600000" 9 "close" = Except.ok none := by
  refine ⟨(claim_C1_time_gate c1State "600000" 7 "close").1 5 rfl (by norm_num),
    ?_, ?_⟩
  · have h := (claim_C1_time_gate c1State "600000" 3 "close").2.1 5 rfl
      (by norm_num)
    rw [h]
    simp [store_lookup, c1State, baseState, c1Bar, field_lookup]
  · have h := (claim_C1_time_gate c1StateUnset "600000" 9 "close").2.2.1 rfl
    rw [h]
    simp [store_lookup, c1StateUnset, c1State, baseState]

theorem limit_blocked_eval (r : BarRecord) (sym act : String) (pc cp : ℚ)
    (hpc : field_lookup r.fields "prev_close" = some pc) (hpc0 : pc ≠ 0)
    (hcp : field_lookup r.fields "close" = some cp) (hcp0 : cp ≠ 0) :
    limit_blocked (some r) sym act =
      decide ((act = "buy" ∧ |cp - round2 (pc * limit_ratio r sym)| < 1/100) ∨
              (act = "sell" ∧ |cp - round2 (pc * (2 - limit_ratio r sym))| < 1/100)) := by
  simp only [limit_blocked, hpc, hcp]
  rw [if_pos ⟨hpc0, hcp0⟩]

/-- The IEEE-754 binary64 value of the literal 10.98, as an exact
rational (mantissa over 2^49; 10.98 lies in the binade [8, 16) whose
unit in the last place is 2^-49). -/
def fl_1098 : ℚ := 6181190488566006 / 2^49

/-- The IEEE-754 binary64 value of the literal 10.99 (mantissa over
2^49). -/
def fl_1099 : ℚ := 6186819988100219 / 2^49

/-- The IEEE-754 binary64 value of the literal 0.01, as an exact
rational (mantissa over 2^59; 0.01 lies in the binade [2^-7, 2^-6)
whose unit in the last place is 2^-59). -/
def fl_001 : ℚ := 5764607523034235 / 2^59

/-- C2, settled at the claim's own example, which the program decides
the other way.  The engine's two-decimal up limit for prev_close 9.99
on the main board is round2(9.99 * 1.10) = 10.99, and under the exact
two-decimal reading a close of 10.98 is NOT strictly within 0.01 of
it, so the claim asserts the buy at 10.98 is accepted; but line 308 of
the source compares binary64 doubles, and |fl(10.98) - fl(10.99)| is
the exactly representable 5629499534213/2^49, strictly BELOW
fl(0.01), so `abs(current_price - limit_up) < 0.01` is True there and
the program rejects the buy at 10.98.  The conjuncts certify, in
order: the limit value; that each `fl` constant has a 53-bit mantissa
and sits strictly within half an ulp of its decimal literal (hence is
the unique round-to-nearest binary64 value); that the float
subtraction is exact (the difference has a small nonnegative 49-bit
numerator); the float comparison that rejects; the exact-decimal
comparison that accepts; and that the exact-rational embedding of the
validator (the claim's intended reading) accepts the order. -/
theorem claim_C2_price_limit_float_boundary :
    round2 ((999:ℚ)/100 * (11/10)) = 1099/100
  ∧ (fl_1098 = 6181190488566006 / 2^49 ∧
      (2:ℤ)^52 ≤ 6181190488566006 ∧ (6181190488566006:ℤ) < 2^53 ∧
      |fl_1098 - (1098:ℚ)/100| < 1/2^50)
  ∧ (fl_1099 = 6186819988100219 / 2^49 ∧
      (2:ℤ)^52 ≤ 6186819988100219 ∧ (6186819988100219:ℤ) < 2^53 ∧
      |fl_1099 - (1099:ℚ)/100| < 1/2^50)
  ∧ (fl_001 = 5764607523034235 / 2^59 ∧
      (2:ℤ)^52 ≤ 5764607523034235 ∧ (5764607523034235:ℤ) < 2^53 ∧
      |fl_001 - (1:ℚ)/100| < 1/2^60)
  ∧ (|fl_1098 - fl_1099| = 5629499534213 / 2^49 ∧
      (0:ℤ) < 5629499534213 ∧ (5629499534213:ℤ) < 2^53)
  ∧ |fl_1098 - fl_1099| < fl_001
  ∧ ¬ (|(1098:ℚ)/100 - 1099/100| < 1/100)
  ∧ validate_trade_compliance (quoteState c2BarBelowLimit) "600000" "buy"
      100 (1098/100) 1 = (true, "") := by
  have hup : round2 ((999:ℚ)/100 * (11/10)) = 1099/100 := by
    rw [round2, round_eq]; norm_num
  have hsw6 : starts_with "600000" "688" = false := by decide
  have hsw3 : starts_with "600000" "300" = false := by decide
  have hratio : limit_ratio c2BarBelowLimit "600000" = 11/10 := by
    simp [limit_ratio, hsw6, hsw3, c2BarBelowLimit]
  have hlb : limit_blocked (some c2BarBelowLimit) "600000" "buy" = false := by
    rw [limit_blocked_eval c2BarBelowLimit "600000" "buy" (999/100) (1098/100)
      (by simp [c2BarBelowLimit, field_lookup]) (by norm_num)
      (by simp [c2BarBelowLimit, field_lookup]) (by norm_num)]
    rw [decide_eq_false_iff_not, hratio, hup]
    rintro (⟨_, hcl⟩ | ⟨hbs, _⟩)
    · rw [abs_sub_lt_iff] at hcl
      norm_num at hcl
    · exact absurd hbs (by decide)
  have hrec : (quoteState c2BarBelowLimit).price_data "600000" 1 =
      some c2BarBelowLimit := by
    simp [quoteState, baseState]
  have hvalid : validate_trade_compliance (quoteState c2BarBelowLimit) "600000"
      "buy" 100 (1098/100) 1 = (true, "") := by
    have hsusp : suspended (some c2BarBelowLimit) = false := by
      simp [suspended, c2BarBelowLimit]
    simp [validate_trade_compliance, hrec, hsusp, hlb]
  refine ⟨hup, ⟨rfl, by norm_num, by norm_num, by rw [fl_1098]; rw [abs_sub_lt_iff]; norm_num⟩,
    ⟨rfl, by norm_num, by norm_num, by rw [fl_1099]; rw [abs_sub_lt_iff]; norm_num⟩,
    ⟨rfl, by norm_num, by norm_num, by rw [fl_001]; rw [abs_sub_lt_iff]; norm_num⟩,
    ⟨by rw [fl_1098, fl_1099]; rw [abs_sub_comm]; rw [abs_of_pos (by norm_num)]; norm_num,
      by norm_num, by norm_num⟩,
    ?_, ?_, hvalid⟩
  · rw [fl_1098, fl_1099, fl_001]
    rw [abs_sub_comm, abs_of_pos (by norm_num)]
    norm_num
  · rw [abs_sub_lt_iff]
    norm_num

/-- C3: with an open position, a sell dated the very buy date is
rejected (the call raises `TradeComplianceError`), while a sell dated
at least one day later passes the settlement check and succeeds given
sufficient held quantity and no record-based violation. -/
theorem claim_C3_t_plus_one (st : EngineState) (sym : String) (q : ℤ)
    (p : ℚ) (d : ℤ) (pos : Position)
    (hpos : dictGet st.positions sym = some pos)
    (hlot : q % 100 = 0) (hrec : st.price_data sym d = none)
    (hqty : q ≤ pos.quantity) :
    (d = pos.buy_date →
        ∃ e, (execute_trade st sym "sell" q p d).1 = ExecOutcome.raised e)
  ∧ (pos.buy_date + 1 ≤ d →
        (execute_trade st sym "sell" q p d).1 = ExecOutcome.returned true) := by
  constructor
  · intro hd
    have hv := validate_fail_t1 st sym q p d pos hpos (by omega)
    exact ⟨⟨(validate_trade_compliance st sym "sell" q p d).2⟩,
      by simp [execute_trade, hv]⟩
  · intro hd
    rw [execute_sell_success st sym q p d pos hpos hlot hrec (by omega) hqty]

/-- Witness for C3: 100 shares bought on day 0 cannot be sold on day 0
but sell successfully on day 1. -/
theorem claim_C3_t_plus_one_witness :
    (∃ e, (execute_trade heldState "600000" "sell" 100 10 0).1 =
        ExecOutcome.raised e)
  ∧ (execute_trade heldState "600000" "sell" 100 10 1).1 =
      ExecOutcome.returned true := by
  have hpos : dictGet heldState.positions "600000" = some heldPos := by
    simp [heldState, baseState, dictGet]
  exact ⟨(claim_C3_t_plus_one heldState "600000" 100 10 0 heldPos hpos
      (by norm_num) rfl (by norm_num [heldPos])).1 rfl,
    (claim_C3_t_plus_one heldState "600000" 100 10 1 heldPos hpos
      (by norm_num) rfl (by norm_num [heldPos])).2 (by norm_num [heldPos])⟩

/-- C4 (amended): a buy adding to an open position succeeds (given
funds and validation), stores as new average cost the TWO-DECIMAL
ROUNDING of `(avg_cost*q_old + fill*q_new)/(q_old+q_new)`, decreases
cash by `fill*q_new + commission`, and no sell ever changes the
average cost of a position. -/
theorem claim_C4_avg_cost (st : EngineState) (sym : String) (q : ℤ) (p : ℚ)
    (d : ℤ) (pos : Position)
    (hnodup : (st.positions.map Prod.fst).Nodup)
    (hpos : dictGet st.positions sym = some pos)
    (hlot : q % 100 = 0) (hrec : st.price_data sym d = none)
    (hcash : calculate_slippage st p "buy" * (q : ℚ) +
      calculate_commission st (calculate_slippage st p "buy" * (q : ℚ)) ≤ st.cash) :
    ((execute_trade st sym "buy" q p d).1 = ExecOutcome.returned true)
  ∧ dictGet (execute_trade st sym "buy" q p d).2.positions sym =
      some { pos with
        avg_cost := round2 ((pos.avg_cost * (pos.quantity : ℚ) +
          calculate_slippage st p "buy" * (q : ℚ)) / ((pos.quantity + q : ℤ) : ℚ)),
        quantity := pos.quantity + q }
  ∧ (execute_trade st sym "buy" q p d).2.cash =
      st.cash - (calculate_slippage st p "buy" * (q : ℚ) +
        calculate_commission st (calculate_slippage st p "buy" * (q : ℚ)))
  ∧ (∀ (q2 : ℤ) (p2 : ℚ) (d2 : ℤ) (pos2 : Position),
      dictGet (execute_trade st sym "sell" q2 p2 d2).2.positions sym = some pos2 →
      pos2.avg_cost = pos.avg_cost) := by
  have he := execute_buy_add_success st sym q p d pos hpos hlot hrec hcash
  refine ⟨by rw [he], ?_, by rw [he], ?_⟩
  · rw [he]
    exact dictGet_dictSet_self st.positions sym _
  · intro q2 p2 d2 pos2 hget
    cases hval : (validate_trade_compliance st sym "sell" q2 p2 d2).1 with
    | false =>
      have hst : (execute_trade st sym "sell" q2 p2 d2).2 = st := by
        simp [execute_trade, hval]
      rw [hst, hpos] at hget
      injection hget with hget
      rw [← hget]
    | true =>
      by_cases hlt : pos.quantity < q2
      · have hst : (execute_trade st sym "sell" q2 p2 d2).2 = st := by
          simp [execute_trade, hval, hpos, hlt]
        rw [hst, hpos] at hget
        injection hget with hget
        rw [← hget]
      · have hst : (execute_trade st sym "sell" q2 p2 d2).2.positions =
            (if pos.quantity - q2 = 0 then dictErase st.positions sym
             else dictSet st.positions sym { pos with quantity := pos.quantity - q2 }) := by
          simp [execute_trade, hval, hpos, hlt]
        rw [hst] at hget
        by_cases hz : pos.quantity - q2 = 0
        · rw [if_pos hz, dictGet_dictErase_self st.positions sym hnodup] at hget
          exact absurd hget (by simp)
        · rw [if_neg hz, dictGet_dictSet_self] at hget
          injection hget with hget
          rw [← hget]

/-- Witness for C4 (amended): buying 100 more shares at fill 12 on a
position of 100 shares at average cost 10 yields average cost 11. -/
theorem claim_C4_avg_cost_witness :
    ((execute_trade heldState "600000" "buy" 100 12 5).1 =
        ExecOutcome.returned true)
  ∧ (dictGet (execute_trade heldState "600000" "buy" 100 12 5).2.positions
      "600000").map Position.avg_cost = some 11 := by
  have h := claim_C4_avg_cost heldState "600000" 100 12 5 heldPos
    (by simp [heldState, baseState])
    (by simp [heldState, baseState, dictGet])
    (by norm_num) rfl
    (by norm_num [calculate_slippage, calculate_commission, heldState,
      baseState, round2, round_eq, max_def])
  refine ⟨h.1, ?_⟩
  rw [h.2.1]
  norm_num [calculate_slippage, heldState, baseState, round2, round_eq, heldPos]

/-- Counterexample for C4 as stated: buying 100 shares at fill 10.01 on
a position of 100 shares at average cost 10 stores average cost 10.01,
while the unrounded weighted-average quotient is 10.005; the claim's
exact equality fails. -/
theorem claim_C4_avg_cost_counterexample :
    ((execute_trade heldState "600000" "buy" 100 (1001/100) 1).1 =
        ExecOutcome.returned true)
  ∧ (dictGet (execute_trade heldState "600000" "buy" 100 (1001/100) 1).2.positions
      "600000").map Position.avg_cost = some (1001/100)
  ∧ (1001 : ℚ)/100 ≠
      (heldPos.avg_cost * (heldPos.quantity : ℚ) + (1001/100) * 100) /
        ((100 : ℚ) + 100) := by
  have he := execute_buy_add_success heldState "600000" 100 (1001/100) 1 heldPos
    (by simp [heldState, baseState, dictGet])
    (by norm_num) rfl
    (by norm_num [calculate_slippage, calculate_commission, heldState,
      baseState, round2, round_eq, max_def])
  refine ⟨by rw [he], ?_, by norm_num [heldPos]⟩
  rw [he]
  simp only [dictGet_dictSet_self]
  norm_num [calculate_slippage, heldState, baseState, round2, round_eq, heldPos]

/-- C5 (amended): an accepted sell increases cash by
`fill*qty - commission` — the engine charges NO stamp tax — decreases
the held quantity by the sold quantity, and removes the position entry
when the remaining quantity is zero. -/
theorem claim_C5_sell_cash (st : EngineState) (sym : String) (q : ℤ) (p : ℚ)
    (d : ℤ) (pos : Position)
    (hnodup : (st.positions.map Prod.fst).Nodup)
    (hpos : dictGet st.positions sym = some pos)
    (hlot : q % 100 = 0) (hrec : st.price_data sym d = none)
    (ht1 : 1 ≤ d - pos.buy_date) (hqty : q ≤ pos.quantity) :
    ((execute_trade st sym "sell" q p d).1 = ExecOutcome.returned true)
  ∧ (execute_trade st sym "sell" q p d).2.cash =
      st.cash + (calculate_slippage st p "sell" * (q : ℚ) -
        calculate_commission st (calculate_slippage st p "sell" * (q : ℚ)))
  ∧ (pos.quantity - q = 0 →
      dictGet (execute_trade st sym "sell" q p d).2.positions sym = none)
  ∧ (pos.quantity - q ≠ 0 →
      dictGet (execute_trade st sym "sell" q p d).2.positions sym =
        some { pos with quantity := pos.quantity - q }) := by
  have he := execute_sell_success st sym q p d pos hpos hlot hrec ht1 hqty
  refine ⟨by rw [he], by rw [he], ?_, ?_⟩
  · intro hz
    rw [he]
    simp [hz, dictGet_dictErase_self st.positions sym hnodup]
  · intro hz
    rw [he]
    simp [hz, dictGet_dictSet_self]

/-- Witness for C5 (amended): selling the whole 100-share position at
fill 10 yields cash 100000 + (1000 - 5) = 100995 and removes the
entry. -/
theorem claim_C5_sell_cash_witness :
    ((execute_trade heldState "600000" "sell" 100 10 1).1 =
        ExecOutcome.returned true)
  ∧ (execute_trade heldState "600000" "sell" 100 10 1).2.cash = 100995
  ∧ dictGet (execute_trade heldState "600000" "sell" 100 10 1).2.positions
      "600000" = none := by
  have h := claim_C5_sell_cash heldState "600000" 100 10 1 heldPos
    (by simp [heldState, baseState])
    (by simp [heldState, baseState, dictGet])
    (by norm_num) rfl (by norm_num [heldPos]) (by norm_num [heldPos])
  refine ⟨h.1, ?_, h.2.2.1 (by norm_num [heldPos])⟩
  rw [h.2.1]
  norm_num [calculate_slippage, calculate_commission, heldState, baseState,
    round2, round_eq, max_def]

/-- Counterexample for C5 as stated: the same sell leaves cash at
100000 + (1000 - 5), which differs from the claimed
`fill*qty - commission - fill*qty*stamp_tax_rate` for the repository's
documented sell-side stamp-tax rate 0.001 — the engine deducts no
stamp tax. -/
theorem claim_C5_sell_cash_counterexample :
    ((execute_trade heldState "600000" "sell" 100 10 1).1 =
        ExecOutcome.returned true)
  ∧ (execute_trade heldState "600000" "sell" 100 10 1).2.cash =
      heldState.cash + (10 * 100 - 5)
  ∧ heldState.cash + (10 * 100 - 5) ≠
      heldState.cash + (10 * 100 - 5 - 10 * 100 * (1/1000 : ℚ)) := by
  have he := execute_sell_success heldState "600000" 100 10 1 heldPos
    (by simp [heldState, baseState, dictGet])
    (by norm_num) rfl (by norm_num [heldPos]) (by norm_num [heldPos])
  refine ⟨by rw [he], ?_, by norm_num [heldState, baseState]⟩
  rw [he]
  norm_num [calculate_slippage, calculate_commission, heldState, baseState,
    round2, round_eq, max_def]

/-- C6 (amended): the rule-tool lot check (`check_min_trade_unit`) lets
every sell through and constrains only buys to whole multiples of 100,
but the engine check (`validate_trade_compliance`) requires EVERY order
quantity, buy or sell, to be a whole multiple of 100, so the engine
rejects odd-lot sells. -/
theorem claim_C6_lot_size (st : EngineState) (sym act : String) (q a : ℤ)
    (p : ℚ) (d : ℤ) :
    ((check_min_trade_unit 100 a "sell").1 = true)
  ∧ (a % 100 ≠ 0 → (check_min_trade_unit 100 a "buy").1 = false)
  ∧ (a % 100 = 0 → (check_min_trade_unit 100 a "buy").1 = true)
  ∧ (q % 100 ≠ 0 → (validate_trade_compliance st sym act q p d).1 = false) := by
  refine ⟨by simp [check_min_trade_unit], ?_, ?_, ?_⟩
  · intro h
    simp [check_min_trade_unit, h]
  · intro h
    simp [check_min_trade_unit, h]
  · intro h
    simp [validate_trade_compliance, h]

/-- Witness for C6 (amended): quantity 150 — a sell passes the rule
tool, a buy fails it, a buy of 200 passes it, and the engine rejects a
sell of 150. -/
theorem claim_C6_lot_size_witness :
    ((check_min_trade_unit 100 150 "sell").1 = true)
  ∧ ((check_min_trade_unit 100 150 "buy").1 = false)
  ∧ ((check_min_trade_unit 100 200 "buy").1 = true)
  ∧ ((validate_trade_compliance heldState "600000" "sell" 150 10 5).1 = false) :=
  ⟨(claim_C6_lot_size heldState "600000" "sell" 150 150 10 5).1,
   (claim_C6_lot_size heldState "600000" "sell" 150 150 10 5).2.1 (by decide),
   (claim_C6_lot_size heldState "600000" "buy" 200 200 10 5).2.2.1 (by decide),
   (claim_C6_lot_size heldState "600000" "sell" 150 150 10 5).2.2.2 (by decide)⟩

/-- Counterexample for C6 as stated: a sell of 50 shares out of a held
100 (positive, not exceeding the held quantity) is REJECTED by the
engine's order-quantity validation, although the rule tool would let
it pass. -/
theorem claim_C6_lot_size_counterexample :
    (0 : ℤ) < 50 ∧ (50 : ℤ) ≤ heldPos.quantity
  ∧ (validate_trade_compliance heldState "600000" "sell" 50 10 5).1 = false
  ∧ (check_min_trade_unit 100 50 "sell").1 = true := by
  have h50 : ((50 : ℤ) % 100 ≠ 0) := by decide
  refine ⟨by norm_num, by norm_num [heldPos], ?_, by simp [check_min_trade_unit]⟩
  simp [validate_trade_compliance, h50]

/-- The loop body of the source max-drawdown computation tracks
`100 * m` whenever the specification fold tracks `m`, as long as the
running peak stays positive. -/
theorem dd_step_eq (peak m v : ℚ) :
    dd_step (peak, 100 * m) v =
      (max peak v, 100 * (spec_dd_step (peak, m) v).2) := by
  unfold dd_step spec_dd_step
  have hmax : (if v > peak then v else peak) = max peak v := by
    rcases le_or_lt v peak with h | h
    · rw [if_neg (not_lt.mpr h), max_eq_left h]
    · rw [if_pos h, max_eq_right h.le]
  simp only [hmax]
  refine Prod.ext rfl ?_
  show (if (max peak v - v) / max peak v * 100 > 100 * m
      then (max peak v - v) / max peak v * 100 else 100 * m)
    = 100 * max m ((max peak v - v) / max peak v)
  rcases le_or_lt ((max peak v - v) / max peak v) m with h | h
  · rw [max_eq_left h, if_neg]
    intro hgt
    nlinarith
  · rw [max_eq_right h.le, if_pos (by nlinarith)]
    ring

theorem drawdown_loop (rest : List ℚ) : ∀ (peak m m2 : ℚ),
    m2 = 100 * m →
    (rest.foldl dd_step (peak, m2)).2
  = 100 * (rest.foldl spec_dd_step (peak, m)).2 := by
  induction rest with
  | nil =>
    intro peak m m2 hm
    simpa using hm
  | cons v tl ih =>
    intro peak m m2 hm
    subst hm
    simp only [List.foldl_cons, dd_step_eq]
    have hfst : (spec_dd_step (peak, m) v).1 = max peak v := rfl
    calc (tl.foldl dd_step (max peak v, 100 * (spec_dd_step (peak, m) v).2)).2
        = 100 * (tl.foldl spec_dd_step (max peak v, (spec_dd_step (peak, m) v).2)).2 :=
          ih (max peak v) ((spec_dd_step (peak, m) v).2) _ rfl
      _ = 100 * (tl.foldl spec_dd_step (spec_dd_step (peak, m) v)).2 := by
          rw [← hfst, Prod.mk.eta]

/-- C7 (amended): the computed max drawdown equals 100 times the
specification's fraction `max over t of (peak(t)-value(t))/peak(t)`
whenever the initial capital is positive and does not exceed the first
snapshot value (so the `initial_capital` seed of the running peak is
absorbed by the first value). -/
theorem claim_C7_max_drawdown (initial v : ℚ) (rest : List ℚ)
    (h0 : 0 < initial) (hle : initial ≤ v) :
    max_drawdown_calc initial (v :: rest) = 100 * spec_max_drawdown (v :: rest) := by
  have hv0 : v ≠ 0 := ne_of_gt (lt_of_lt_of_le h0 hle)
  have hpk : (if v > initial then v else initial) = v := by
    rcases lt_or_eq_of_le hle with h | h
    · rw [if_pos h]
    · rw [← h, if_neg (lt_irrefl initial)]
  have hstep : dd_step (initial, 0) v = (v, 0) := by
    unfold dd_step
    simp only [hpk]
    norm_num
  unfold max_drawdown_calc spec_max_drawdown
  rw [List.foldl_cons, hstep]
  exact drawdown_loop rest v 0 0 (by norm_num)

/-- Witness for C7 (amended): snapshots [100,120,90,110] with initial
capital 100 give the spec fraction 1/4, and the source loop 100 times
that (25 percent). -/
theorem claim_C7_max_drawdown_witness :
    max_drawdown_calc 100 [100, 120, 90, 110]
      = 100 * spec_max_drawdown [100, 120, 90, 110]
  ∧ spec_max_drawdown [100, 120, 90, 110] = 1/4 := by
  refine ⟨claim_C7_max_drawdown 100 100 [120, 90, 110] (by norm_num) le_rfl, ?_⟩
  norm_num [spec_max_drawdown, spec_dd_step, max_def]

/-- Counterexample for C7 as stated: with initial capital 200 and the
single snapshot [100] the source computes 50 (percent) because the
running peak is seeded with the initial capital, while the claimed
running-peak-of-values formula gives 0 — the two disagree under either
scaling. -/
theorem claim_C7_max_drawdown_counterexample :
    max_drawdown_calc 200 [100] = 50
  ∧ spec_max_drawdown [100] = 0
  ∧ ¬ ((50 : ℚ) = 0 ∨ (50 : ℚ) = 100 * 0) := by
  refine ⟨?_, ?_, by norm_num⟩
  · norm_num [max_drawdown_calc, dd_step]
  · norm_num [spec_max_drawdown]

/-- The engine after buying 100 shares of "600000" at quote 10 (no
slippage) on day 1 starting from `baseState`: fill 10, amount 1000,
commission 5. -/
def c8State1 : EngineState :=
  { baseState with
    positions := [("600000",
      { symbol := "600000", quantity := 100, avg_cost := 10, buy_date := 1 })],
    cash := 98995,
    trades := [⟨1, "600000", "buy", 100, 10, 1000, 5, 0⟩] }

/-- `c8State1` after selling the whole position at quote 12 on day 2:
fill 12, amount 1200, commission 5, entry removed. -/
def c8State2 : EngineState :=
  { baseState with
    positions := [],
    cash := 100190,
    trades := [⟨1, "600000", "buy", 100, 10, 1000, 5, 0⟩,
               ⟨2, "600000", "sell", 100, 12, 1200, 5, 0⟩] }

theorem c8_buy_step :
    execute_trade baseState "600000" "buy" 100 10 1 =
      (ExecOutcome.returned true, c8State1) := by
  rw [execute_buy_new_success baseState "600000" 100 10 1
    (by simp [baseState, dictGet]) (by norm_num) rfl
    (by norm_num [baseState])
    (by norm_num [calculate_slippage, calculate_commission, baseState,
      round2, round_eq, max_def])]
  refine congrArg _ ?_
  norm_num [c8State1, baseState, dictSet, calculate_slippage,
    calculate_commission, round2, round_eq, max_def]

theorem c8_sell_step :
    execute_trade c8State1 "600000" "sell" 100 12 2 =
      (ExecOutcome.returned true, c8State2) := by
  rw [execute_sell_success c8State1 "600000" 100 12 2
    { symbol := "600000", quantity := 100, avg_cost := 10, buy_date := 1 }
    (by simp [c8State1, baseState, dictGet]) (by norm_num) rfl
    (by norm_num) (by norm_num)]
  refine congrArg _ ?_
  norm_num [c8State2, c8State1, baseState, dictErase, calculate_slippage,
    calculate_commission, round2, round_eq, max_def]

/-- C8, evaluated at the failing input: buy 100 at fill 10 on day 1,
sell all 100 at fill 12 on day 2 — the sale fills strictly above the
average cost 10 it was held at, yet the computed win rate is 0,
because the win test reads `avg_cost` from the CURRENT position map
(whose default for a closed symbol is the sell price itself), not the
position's average cost at the time of the sale. -/
theorem claim_C8_win_rate_at_failing_input :
    (execute_trade baseState "600000" "buy" 100 10 1 =
        (ExecOutcome.returned true, c8State1))
  ∧ (dictGet c8State1.positions "600000").map Position.avg_cost = some 10
  ∧ (execute_trade c8State1 "600000" "sell" 100 12 2 =
        (ExecOutcome.returned true, c8State2))
  ∧ ((c8State2.trades.filter (fun t => t.action = "sell")).map Trade.price
        = [12])
  ∧ (10 : ℚ) < 12
  ∧ win_rate_calc c8State2.positions c8State2.trades = 0 := by
  refine ⟨c8_buy_step, by simp [c8State1, dictGet], c8_sell_step, ?_, by norm_num, ?_⟩
  · simp [c8State2, baseState, List.filter]
  · norm_num [win_rate_calc, c8State2, baseState, dictGet, List.filter]

/-- C9: a buy opening a NEW symbol is rejected (returns False, state
unchanged) when the distinct-symbol count already equals
`max_positions`, while a buy adding to an already-open position is
never rejected by the cap, whatever the count, and succeeds given
funds and validation. -/
theorem claim_C9_position_cap (st : EngineState) (sym : String) (q : ℤ)
    (p : ℚ) (d : ℤ)
    (hlot : q % 100 = 0) (hrec : st.price_data sym d = none) :
    (dictGet st.positions sym = none →
      st.positions.length = st.max_positions →
        execute_trade st sym "buy" q p d = (ExecOutcome.returned false, st))
  ∧ (∀ pos : Position, dictGet st.positions sym = some pos →
      calculate_slippage st p "buy" * (q : ℚ) +
        calculate_commission st (calculate_slippage st p "buy" * (q : ℚ)) ≤ st.cash →
      (execute_trade st sym "buy" q p d).1 = ExecOutcome.returned true) := by
  have hv : validate_trade_compliance st sym "buy" q p d = (true, "") :=
    validate_pass st sym "buy" q p d hlot hrec (by simp)
  constructor
  · intro hnone hlen
    have hge : st.positions.length ≥ st.max_positions := hlen.ge
    by_cases hc : calculate_slippage st p "buy" * (q : ℚ) +
        calculate_commission st (calculate_slippage st p "buy" * (q : ℚ)) > st.cash
    · simp [execute_trade, hv, hc]
    · simp [execute_trade, hv, hc, hnone, hge]
  · intro pos hpos hcash
    rw [execute_buy_add_success st sym q p d pos hpos hlot hrec hcash]

/-- The engine holding five distinct symbols (its `max_positions`). -/
def fullState : EngineState :=
  { baseState with positions :=
      [("600000", heldPos),
       ("600036", { heldPos with symbol := "600036" }),
       ("600519", { heldPos with symbol := "600519" }),
       ("000001", { heldPos with symbol := "000001" }),
       ("000002", { heldPos with symbol := "000002" })] }

/-- Witness for C9: with five symbols held out of a cap of five, a buy
of the new symbol "600100" returns False and leaves the state intact,
while a buy adding to the held "600000" succeeds. -/
theorem claim_C9_position_cap_witness :
    execute_trade fullState "600100" "buy" 100 10 1 =
      (ExecOutcome.returned false, fullState)
  ∧ (execute_trade fullState "600000" "buy" 100 10 1).1 =
      ExecOutcome.returned true := by
  constructor
  · exact (claim_C9_position_cap fullState "600100" 100 10 1 (by norm_num) rfl).1
      (by simp [fullState, baseState, dictGet]) (by simp [fullState, baseState])
  · exact (claim_C9_position_cap fullState "600000" 100 10 1 (by norm_num) rfl).2
      heldPos (by simp [fullState, baseState, dictGet])
      (by norm_num [calculate_slippage, calculate_commission, fullState,
        baseState, round2, round_eq, max_def])

/-- C10: `execute_trade` is atomic — whenever it raises
`TradeComplianceError` or returns False the state (cash, positions,
trade log) is exactly the pre-call state, and whenever it returns True
exactly one Trade record is appended to the trade log. -/
theorem claim_C10_atomicity (st : EngineState) (sym act : String) (q : ℤ)
    (p : ℚ) (d : ℤ) :
    (∀ e, (execute_trade st sym act q p d).1 = ExecOutcome.raised e →
        (execute_trade st sym act q p d).2 = st)
  ∧ ((execute_trade st sym act q p d).1 = ExecOutcome.returned false →
        (execute_trade st sym act q p d).2 = st)
  ∧ ((execute_trade st sym act q p d).1 = ExecOutcome.returned true →
        ∃ tr, (execute_trade st sym act q p d).2.trades = st.trades ++ [tr]) := by
  by_cases hv : (validate_trade_compliance st sym act q p d).1 = false
  · simp [execute_trade, hv]
  · by_cases hb : act = "buy"
    · subst hb
      by_cases hc : calculate_slippage st p "buy" * (q : ℚ) +
          calculate_commission st (calculate_slippage st p "buy" * (q : ℚ)) > st.cash
      · simp [execute_trade, hv, hc]
      · by_cases hcap : dictGet st.positions sym = none ∧
            st.positions.length ≥ st.max_positions
        · simp [execute_trade, hv, hc, hcap]
        · rcases hpos : dictGet st.positions sym with _ | pos
          · have hlen : ¬ st.positions.length ≥ st.max_positions :=
              fun hB => hcap ⟨hpos, hB⟩
            simp [execute_trade, hv, hc, hpos, hlen]
          · simp [execute_trade, hv, hc, hcap, hpos]
    · rcases hpos : dictGet st.positions sym with _ | pos
      · simp [execute_trade, hv, hb, hpos]
      · by_cases hlt : pos.quantity < q
        · simp [execute_trade, hv, hb, hpos, hlt]
        · simp [execute_trade, hv, hb, hpos, hlt]

/-- Witness for C10 at concrete calls: a same-day sell raises and
leaves the state intact, a sell with no position returns False and
leaves the state intact, and a successful buy appends one trade. -/
theorem claim_C10_atomicity_witness :
    (execute_trade heldState "600000" "sell" 100 10 0).2 = heldState
  ∧ (execute_trade baseState "600000" "sell" 100 10 1).2 = baseState
  ∧ (∃ tr, (execute_trade baseState "600000" "buy" 100 10 1).2.trades =
      baseState.trades ++ [tr]) := by
  refine ⟨?_, ?_, ?_⟩
  · have hv := validate_fail_t1 heldState "600000" 100 10 0 heldPos
      (by simp [heldState, baseState, dictGet]) (by norm_num [heldPos])
    exact (claim_C10_atomicity heldState "600000" "sell" 100 10 0).1
      ⟨(validate_trade_compliance heldState "600000" "sell" 100 10 0).2⟩
      (by simp [execute_trade, hv])
  · have hv : validate_trade_compliance baseState "600000" "sell" 100 10 1 =
        (true, "") :=
      validate_pass baseState "600000" "sell" 100 10 1 (by norm_num) rfl
        (by simp [t1_blocked, baseState, dictGet])
    have hget : dictGet baseState.positions "600000" = none := by
      simp [baseState, dictGet]
    exact (claim_C10_atomicity baseState "600000" "sell" 100 10 1).2.1
      (by simp [execute_trade, hv, hget])
  · exact (claim_C10_atomicity baseState "600000" "buy" 100 10 1).2.2
      (by rw [c8_buy_step])

end AITrader
